import Mathlib

/-!
# Verification of the Lanelet2/OSM conflation engine

Shallow embedding of `src/src/conflation/conflation.cpp` (class `cconflation`).
Geometry is embedded exactly over the rationals, represented as unnormalised
fractions of machine integers (`Qx`, with a positive denominator kept by
construction) so that every comparison is a kernel-executable cross
multiplication: wherever the C++ compares Euclidean distances (which involve
square roots), the embedding compares squared distances, which yields the same
order and the same thresholds (the snapping tolerance `1e-3` on a distance
becomes `1e-6` on a squared distance); where the C++ compares a *sum of two*
Euclidean distances (`get_index`), the embedding decides `√a + √b < √c + √d`
exactly by repeated squaring.

Lanelet2 primitives (`Point3d`, `LineString3d`, `Lanelet`) compare by identity
in C++ (`operator==` on shared data); since every identity corresponds to one
record here, identity equality is embedded as equality of ids.  Machine doubles
are embedded as exact rationals; attribute maps as association lists with
unique keys.  Out-of-bounds `std::vector` accesses and C++ exceptions
(`std::stoi`) are embedded in `Except String`.

The methods of the match structure `s_match` (`ref_pline`, `target_pline`,
`update_ref_tags`, `remove_tag_ref_pline`) are declared in a header that is not
under `src/`; they are modelled from the spec (marked `Modelled from the spec:`
in their doc comments).
-/

/-- An exact rational: an unnormalised fraction with positive denominator
(kept positive by every operation below).  Embeds the C++ `double` exactly;
numeric equality and order are decided by cross multiplication, so every
geometric computation reduces inside the kernel. -/
structure Qx where
  num : Int
  den : Int
deriving DecidableEq

instance : OfNat Qx n where
  ofNat := ⟨Int.ofNat n, 1⟩

instance : LT Qx where
  lt a b := a.num * b.den < b.num * a.den

instance : LE Qx where
  le a b := a.num * b.den ≤ b.num * a.den

instance (a b : Qx) : Decidable (a < b) :=
  inferInstanceAs (Decidable (a.num * b.den < b.num * a.den))

instance (a b : Qx) : Decidable (a ≤ b) :=
  inferInstanceAs (Decidable (a.num * b.den ≤ b.num * a.den))

instance : Add Qx where
  add a b := ⟨a.num * b.den + b.num * a.den, a.den * b.den⟩

instance : Sub Qx where
  sub a b := ⟨a.num * b.den - b.num * a.den, a.den * b.den⟩

instance : Mul Qx where
  mul a b := ⟨a.num * b.num, a.den * b.den⟩

/-- Exact division; a zero divisor yields `0` (the C++ double division would
yield `±inf`/`NaN` there — every use below is either guarded or degenerate). -/
instance : Div Qx where
  div a b :=
    if b.num = 0 then ⟨0, 1⟩
    else if 0 < b.num then ⟨a.num * b.den, a.den * b.num⟩
    else ⟨-(a.num * b.den), a.den * -b.num⟩

instance : Min Qx where
  min a b := if a < b then a else b

instance : Max Qx where
  max a b := if a < b then b else a

/-- Numeric absolute value. -/
def Qx.absq (a : Qx) : Qx :=
  if a.num < 0 then ⟨-a.num, a.den⟩ else a

/-- Numeric zero test (`== 0.0` on the C++ double). -/
def Qx.isZero (a : Qx) : Bool :=
  a.num == 0

/-- A 3-D map point: identity plus exact coordinates
(`lanelet::Point3d`; attribute table omitted — never read by the
conflation code). -/
structure Point3d where
  id : Int
  x : Qx
  y : Qx
  z : Qx
deriving DecidableEq

/-- A boundary linestring (`lanelet::LineString3d`): identity, ordered points,
string-keyed attribute table. -/
structure LineString3d where
  id : Int
  pts : List Point3d
  attrs : List (String × String)
deriving DecidableEq

/-- A lane element (`lanelet::Lanelet`): identity, left/right boundary curve
referenced by linestring id (two lanelets may share one curve), attributes. -/
structure Lanelet where
  id : Int
  leftId : Int
  rightId : Int
  attrs : List (String × String)
deriving DecidableEq

/-- The map (`lanelet::LaneletMap`): linestring store, lanelet layer and the
non-geometric layers that conflation passes through unchanged. -/
structure LaneletMap where
  lss : List LineString3d
  lanelets : List Lanelet
  areas : List Int
  regElems : List Int
  polygons : List Int
deriving DecidableEq

/-- A match (`s_match`): ordered reference route and ordered target route.
`ref_pline()` / `target_pline()` are field accesses. -/
structure SMatch where
  refPline : List LineString3d
  targetPline : List LineString3d
deriving DecidableEq

def dfltPt : Point3d := ⟨0, 0, 0, 0⟩

def dfltLs : LineString3d := ⟨0, [], []⟩

/-- `lanelet::Lanelet empty` — the default-constructed sentinel returned by
`find_ll` on lookup failure (invalid id 0). -/
def dfltLl : Lanelet := ⟨0, 0, 0, []⟩

def emptyMap : LaneletMap := ⟨[], [], [], [], []⟩

/-- `hasAttribute` on an attribute table. -/
def hasAttribute (ls : LineString3d) (k : String) : Bool :=
  (ls.attrs.lookup k).isSome

/-- `attribute(key).value()` — only called by the source after `hasAttribute`,
so the default is never observed. -/
def attrValue (ls : LineString3d) (k : String) : String :=
  (ls.attrs.lookup k).getD ""

/-- Write `attrs[k] = v` on a unique-key association list (`std::map`
assignment): replace the first binding of `k` or append a new one. -/
def setAttrList (attrs : List (String × String)) (k v : String) : List (String × String) :=
  match attrs with
  | [] => [(k, v)]
  | (k0, v0) :: rest => if k0 = k then (k, v) :: rest else (k0, v0) :: setAttrList rest k v

/-- `*attribute(key).asId()` — the stored id parsed back from its string form. -/
def strToInt (s : String) : Int :=
  (s.toInt?).getD 0

/-- `std::string::find(sub) != npos` — substring containment. -/
def containsSub (s sub : String) : Bool :=
  (s.splitOn sub).length ≥ 2

/-- `std::stoi`: skip leading spaces, optional sign, then at least one digit
(trailing characters ignored); `none` models the `std::invalid_argument` throw. -/
def stoi? (s : String) : Option Int :=
  let cs := s.toList.dropWhile (fun c => c = ' ')
  let sign : Int := match cs with
    | '-' :: _ => -1
    | _ => 1
  let ds := (match cs with
    | '-' :: r => r
    | '+' :: r => r
    | r => r).takeWhile Char.isDigit
  if ds.isEmpty then none
  else some (sign * ds.foldl (fun a c => a * 10 + (Int.ofNat (c.toNat - '0'.toNat))) 0)

/-- `std::min_element` with a strict-less test: index of the first minimum
(`0` on the empty list, where `min_element` returns `end()`). -/
def argminByAux {α : Type} (lt : α → α → Bool) : List α → Nat → Nat → α → Nat
  | [], _, best, _ => best
  | a :: r, i, best, bv =>
    if lt a bv then argminByAux lt r (i + 1) i a else argminByAux lt r (i + 1) best bv

def argminBy {α : Type} (lt : α → α → Bool) : List α → Nat
  | [] => 0
  | a :: r => argminByAux lt r 1 0 a

def argminQ (l : List Qx) : Nat :=
  argminBy (fun a b => decide (a < b)) l

/-- `*std::min_element` on a nonempty list (junk `0` on the empty list). -/
def listMinQ : List Qx → Qx
  | [] => 0
  | a :: r => r.foldl min a

/-- Exact decision of `√A + √B < √C + √D` for nonnegative rationals, by
squaring twice with sign analysis; used where the C++ compares sums of two
Euclidean distances computed from squared inputs. -/
def sumSqrtLt (A B C D : Qx) : Bool :=
  let p := (C + D) - (A + B)
  let X := A * B
  let Y := C * D
  if 0 < p then
    let q := 4 * X - p * p - 4 * Y
    if q < 0 then true else decide (q * q < 16 * (p * p) * Y)
  else
    if 4 * Y < p * p then false
    else
      let q := 4 * X - p * p - 4 * Y
      if 0 ≤ q then false else decide (16 * (p * p) * Y < q * q)

def coords (p : Point3d) : Qx × Qx × Qx :=
  (p.x, p.y, p.z)

/-- Squared 3-D Euclidean distance (`lanelet::geometry::distance` squared). -/
def dist2sq3 (a b : Qx × Qx × Qx) : Qx :=
  (a.1 - b.1) * (a.1 - b.1) + (a.2.1 - b.2.1) * (a.2.1 - b.2.1) + (a.2.2 - b.2.2) * (a.2.2 - b.2.2)

/-- Squared 2-D Euclidean distance (`lanelet::geometry::distance2d` squared). -/
def dist2sq2 (a b : Point3d) : Qx :=
  (a.x - b.x) * (a.x - b.x) + (a.y - b.y) * (a.y - b.y)

/-- Consecutive pairs of a list (the segments of a polyline). -/
def consPairs {α : Type} (l : List α) : List (α × α) :=
  l.zip l.tail

/-- Foot of the perpendicular from `P` onto segment `AB`, clamped to the
segment (exact rational computation). -/
def segFoot (P A B : Qx × Qx × Qx) : Qx × Qx × Qx :=
  let d2 := dist2sq3 A B
  if d2.isZero then A
  else
    let t0 := ((P.1 - A.1) * (B.1 - A.1) + (P.2.1 - A.2.1) * (B.2.1 - A.2.1) +
               (P.2.2 - A.2.2) * (B.2.2 - A.2.2)) / d2
    let t := max 0 (min 1 t0)
    (A.1 + t * (B.1 - A.1), A.2.1 + t * (B.2.1 - A.2.1), A.2.2 + t * (B.2.2 - A.2.2))

/-- `lanelet::geometry::project`: the point of the polyline closest to `P`
(first closest segment foot; squared distances give the same minimiser). -/
def projectPolyline (P : Qx × Qx × Qx) (pts : List Point3d) : Qx × Qx × Qx :=
  let feet := (consPairs pts).map (fun ab => segFoot P (coords ab.1) (coords ab.2))
  match feet with
  | [] => coords (pts.headD dfltPt)
  | _ :: _ => feet.getD (argminQ (feet.map (fun f => dist2sq3 P f))) P

/-- `cconflation::find_segment_2D` (lines 589–598): for each consecutive
vertex pair the supporting line's slope `m = Δy / Δx` (no guard against
`Δx = 0`: the C++ double division yields `±inf`/`NaN` there, the exact `Qx`
division yields `0`), intercept `t`, and the vertical deviation of `pt`;
returns the index of the first minimal deviation. -/
def find_segment_2D (pt : Point3d) (ls : LineString3d) : Nat :=
  let diff := (consPairs ls.pts).map (fun ab =>
    let m := (ab.2.y - ab.1.y) / (ab.2.x - ab.1.x)
    let t := ab.1.y - m * ab.1.x
    Qx.absq (pt.y - (m * pt.x + t)))
  argminQ diff

/-- `cconflation::used_Id(const lanelet::Ids &, …)` (lines 631–648):
membership of an id in the already-used list. -/
def used_Id (ids : List Int) (i : Int) : Bool :=
  ids.any (fun x => x == i)

/-- Index of the first occurrence (`std::distance(begin, std::find(…))`);
length of the list when absent. -/
def findIdx0 (l : List Int) (x : Int) : Nat :=
  match l with
  | [] => 0
  | a :: r => if a = x then 0 else findIdx0 r x + 1

/-- `invert()` on a linestring: reversed traversal, same identity. -/
def invertLs (ls : LineString3d) : LineString3d :=
  { ls with pts := ls.pts.reverse }

/-- Squared snapping tolerance: the source compares a distance to `1e-3`. -/
def tolSq : Qx := ⟨1, 1000000⟩

/-- Result of `cconflation::split_linestring`: the (mutated) original
linestring, the suffix linestring assigned to `new_ls`, the updated memo
`splitted`, the updated suffix store `new_lss`, and the advanced id counter
(`lanelet::utils::getId()` is a global counter, threaded explicitly). -/
structure SplitRes where
  origLs : LineString3d
  newLs : LineString3d
  splitted : List Int
  newLss : List LineString3d
  nextId : Int
deriving DecidableEq

/-- Lines 437–474 of `split_linestring`: the split vertex and the segment
index at which the curve is divided.  Project the split point onto the curve;
if the closest vertex is within tolerance and is the *first* vertex,
synthesize the midpoint of the first two vertices; the source's test for the
*last* vertex compares `std::distance(min_element, end())` to `0`, which never
holds for a nonempty list (and its body reads `orig_ls[size]`, out of bounds —
embedded with a default), so a closest *last* vertex falls into the plain snap
branch; otherwise snap to the closest vertex, or materialize the projection
(`ptId` is the id drawn for the candidate new point). -/
def splitChoose (orig : LineString3d) (pt : Point3d) (ptId : Int) : Point3d × Nat :=
  let ptProj := projectPolyline (coords pt) orig.pts
  let d := orig.pts.map (fun q => dist2sq3 ptProj (coords q))
  let amin := argminQ d
  if listMinQ d < tolSq then
    if amin = 0 then
      let a := orig.pts.getD 0 dfltPt
      let b := orig.pts.getD 1 dfltPt
      let np : Point3d := ⟨ptId, (a.x + b.x) / 2, (a.y + b.y) / 2, (a.z + b.z) / 2⟩
      (np, find_segment_2D np orig)
    else if d.length - amin = 0 then
      let sz := orig.pts.length
      let a := orig.pts.getD (sz - 1) dfltPt
      let b := orig.pts.getD sz dfltPt
      let np : Point3d := ⟨ptId, (a.x + b.x) / 2, (a.y + b.y) / 2, (a.z + b.z) / 2⟩
      (np, find_segment_2D np orig)
    else
      (orig.pts.getD amin dfltPt, amin)
  else
    let np : Point3d := ⟨ptId, ptProj.1, ptProj.2.1, ptProj.2.2⟩
    (np, find_segment_2D np orig)

/-- `split_linestring` on the already direction-normalised curve
(lines 435–499): a memo hit returns the previously produced suffix; otherwise
divide at the chosen vertex — the original keeps the prefix plus the split
vertex (pushed unconditionally: the guard against duplicating it is commented
out in the source), the new linestring owns the split vertex plus the suffix
and inherits the attributes, and memo and suffix store grow in lockstep. -/
def splitLsCore (orig : LineString3d) (splitted : List Int)
    (newLss : List LineString3d) (pt : Point3d) (nextId : Int) : SplitRes :=
  if used_Id splitted orig.id then
    { origLs := orig
      newLs := newLss.getD (findIdx0 splitted orig.id) dfltLs
      splitted := splitted
      newLss := newLss
      nextId := nextId }
  else
    let npInd := splitChoose orig pt nextId
    let newLs1 : LineString3d := ⟨nextId + 1, npInd.1 :: orig.pts.drop (npInd.2 + 1), orig.attrs⟩
    let orig1 : LineString3d := ⟨orig.id, orig.pts.take (npInd.2 + 1) ++ [npInd.1], orig.attrs⟩
    { origLs := orig1
      newLs := newLs1
      splitted := splitted ++ [orig.id]
      newLss := newLss ++ [newLs1]
      nextId := nextId + 2 }

/-- `cconflation::split_linestring` (lines 428–505): if `invert` (backward
direction), the curve is traversed in reverse during the split and both the
original and the returned suffix are inverted back afterwards (lines 432–434
and 500–504; the suffix was stored in `new_lss` *before* that re-inversion). -/
def split_linestring (origLs0 : LineString3d) (splitted : List Int)
    (newLss : List LineString3d) (pt : Point3d) (invert : Bool) (nextId : Int) : SplitRes :=
  let orig := if invert then invertLs origLs0 else origLs0
  let r := splitLsCore orig splitted newLss pt nextId
  if invert then { r with origLs := invertLs r.origLs, newLs := invertLs r.newLs } else r

/-- One key of `cconflation::check_tag_change` (lines 337–373), step function
of the walk over the remaining segments: if the segment carries the key and
its value differs from the running value, record the segment's first point and
the new value; if it lacks the key and the running value is nonempty, record
the transition to the empty value. -/
def ctcStep (key : String) (st : List Point3d × List String × String)
    (seg : LineString3d) : List Point3d × List String × String :=
  let pts := st.1
  let vals := st.2.1
  let val := st.2.2
  if hasAttribute seg key then
    if attrValue seg key ≠ val then
      (pts ++ [seg.pts.headD dfltPt], vals ++ [attrValue seg key], attrValue seg key)
    else st
  else
    if val ≠ "" then (pts ++ [seg.pts.headD dfltPt], vals ++ [""], "") else st

/-- Seed value for one key: the first segment's value if present, else empty
(also empty on an empty route). -/
def ctcInit (pline : List LineString3d) (key : String) : String :=
  match pline with
  | [] => ""
  | f :: _ => if hasAttribute f key then attrValue f key else ""

/-- `cconflation::check_tag_change` restricted to one key: ordered change
points and the value sequence. -/
def check_tag_change_key (pline : List LineString3d) (key : String) :
    List Point3d × List String :=
  let st := (pline.drop 1).foldl (ctcStep key) ([], [ctcInit pline key], ctcInit pline key)
  (st.1, st.2.1)

/-- `cconflation::check_tag_change` (lines 337–373): per key in order, push the
change points and value sequence. -/
def check_tag_change (pline : List LineString3d) (keys : List String) :
    List (List Point3d) × List (List String) :=
  (keys.map (fun k => (check_tag_change_key pline k).1),
   keys.map (fun k => (check_tag_change_key pline k).2))

/-- `cconflation::merge_point_vec` (lines 852–864): concatenate, keeping the
first occurrence of each point (C++ compares `ConstPoint3d` by identity, i.e.
by id). -/
def merge_point_vec (ptsChange : List (List Point3d)) : List Point3d :=
  ptsChange.foldl
    (fun merged vec =>
      vec.foldl (fun mg pt => if mg.any (fun q => q.id == pt.id) then mg else mg ++ [pt]) merged)
    []

/-- `cconflation::get_index` (lines 541–550): index of the reference segment
minimising `distance2d(front, pt) + distance2d(back, pt)` (first minimum; `0`
on an empty route, where `min_element` returns `end()`).  The sum of two
Euclidean distances is compared exactly via `sumSqrtLt` on squared inputs. -/
def get_index (m : SMatch) (pt : Point3d) : Nat :=
  let d := m.refPline.map
    (fun seg => (dist2sq2 (seg.pts.headD dfltPt) pt, dist2sq2 (seg.pts.getLastD dfltPt) pt))
  argminBy (fun a b => sumSqrtLt a.1 a.2 b.1 b.2) d

/-- `cconflation::same_direction` (lines 670–687): both routes nonempty and
`|atan2(v1 × v2, v1 · v2)| < π/2`, which holds exactly when `v1 · v2 > 0`, or
when both cross and dot vanish (`atan2(0,0) = 0`). -/
def same_direction (m : SMatch) : Bool :=
  if ¬m.refPline.isEmpty ∧ ¬m.targetPline.isEmpty then
    let rf := (m.refPline.headD dfltLs).pts.headD dfltPt
    let rb := (m.refPline.getLastD dfltLs).pts.getLastD dfltPt
    let tf := (m.targetPline.headD dfltLs).pts.headD dfltPt
    let tb := (m.targetPline.getLastD dfltLs).pts.getLastD dfltPt
    let v1 : Qx × Qx := (rb.x - rf.x, rb.y - rf.y)
    let v2 : Qx × Qx := (tb.x - tf.x, tb.y - tf.y)
    let dot := v1.1 * v2.1 + v1.2 * v2.2
    let cross := v1.1 * v2.2 - v2.1 * v1.2
    decide (0 < dot) ∨ (dot.isZero ∧ cross.isZero)
  else false

/-- `cconflation::find_ll` (lines 555–566): first lanelet with the id, else the
logged empty sentinel. -/
def find_ll (mp : LaneletMap) (id : Int) : Lanelet :=
  (mp.lanelets.find? (fun ll => ll.id == id)).getD dfltLl

/-- Linestring of the map's store with the given id (dereferencing a bound
handle held by a lanelet). -/
def getLs (mp : LaneletMap) (id : Int) : LineString3d :=
  (mp.lss.find? (fun l => l.id == id)).getD dfltLs

/-- Write back a mutated linestring into the store (in C++ the mutation
happens in place through the shared handle, visible to every referrer). -/
def storeUpdate (mp : LaneletMap) (ls : LineString3d) : LaneletMap :=
  { mp with lss := mp.lss.map (fun l => if l.id == ls.id then ls else l) }

/-- `map_ptr->add(new_ll)`: register the lanelet and (recursively) its bound
linestrings, skipping ids already present. -/
def mapAddLanelet (mp : LaneletMap) (ll : Lanelet) (bounds : List LineString3d) : LaneletMap :=
  { mp with
    lanelets := mp.lanelets ++ [ll]
    lss := bounds.foldl (fun s b => if s.any (fun l => l.id == b.id) then s else s ++ [b]) mp.lss }

/-- Set one attribute of the lanelet with the given id
(`ll.attributes()[key_ref] = val` through the shared handle). -/
def mapSetLlAttr (mp : LaneletMap) (llId : Int) (k v : String) : LaneletMap :=
  { mp with
    lanelets := mp.lanelets.map
      (fun l => if l.id == llId then { l with attrs := setAttrList l.attrs k v } else l) }

/-- Active-value rule shared by lines 190–198, 282–289 and 522–529: start from
the first value and overwrite with `values[j+1]` for every change index `j`
with `ind ≥ ind_change[j]`. -/
def activeVal (indChange : List Nat) (values : List String) (ind : Nat) : String :=
  (List.range indChange.length).foldl
    (fun v j => if indChange.getD j 0 ≤ ind then values.getD (j + 1) "" else v)
    (values.headD "")

/-- Fuel bound for the `while (seg.hasAttribute(key + i))` chain walks: a
segment with `n` attribute entries carries at most `n` distinct indexed keys,
so the first missing index is at most `n + 1`. -/
def chainFuel (seg : LineString3d) : Nat :=
  seg.attrs.length + 1

/-- `cconflation::count_lanes_dir` (lines 714–724), inner walk. -/
def countLanesGo (seg : LineString3d) (key : String) : Nat → Nat → Int
  | _, 0 => 0
  | i, fuel + 1 =>
    if hasAttribute seg (key ++ toString i) then 1 + countLanesGo seg key (i + 1) fuel else 0

/-- `cconflation::count_lanes_dir`: add the chain length of one direction to
the running count. -/
def count_lanes_dir (key : String) (seg : LineString3d) (count : Int) : Int :=
  count + countLanesGo seg key 1 (chainFuel seg)

/-- `cconflation::used_Id(cols, ll)` (lines 617–626). -/
def used_Id_cols (cols : List (Int × String)) (ll : Lanelet) : Bool :=
  cols.any (fun p => p.1 == ll.id)

/-- `cconflation::set_color_code_dir` (lines 730–746), inner walk: append
`(id, col_code)` for every chain lanelet whose id has no entry yet. -/
def sccdGo (mp : LaneletMap) (seg : LineString3d) (key col : String)
    (cols : List (Int × String)) : Nat → Nat → List (Int × String)
  | _, 0 => cols
  | i, fuel + 1 =>
    let kI := key ++ toString i
    if hasAttribute seg kI then
      let ll := find_ll mp (strToInt (attrValue seg kI))
      let cols1 := if used_Id_cols cols ll then cols else cols ++ [(ll.id, col)]
      sccdGo mp seg key col cols1 (i + 1) fuel
    else cols

def set_color_code_dir (key : String) (seg : LineString3d) (mp : LaneletMap)
    (col : String) (cols : List (Int × String)) : List (Int × String) :=
  sccdGo mp seg key col cols 1 (chainFuel seg)

/-- `cconflation::set_value_dir` (lines 693–709), inner walk: write
`key_ref = val` on every chain lanelet not yet in the per-call written set. -/
def svdGo (mp : LaneletMap) (seg : LineString3d) (key keyRef val : String)
    (setll : List Int) : Nat → Nat → LaneletMap × List Int
  | _, 0 => (mp, setll)
  | i, fuel + 1 =>
    let kI := key ++ toString i
    if hasAttribute seg kI then
      let ll := find_ll mp (strToInt (attrValue seg kI))
      let st1 :=
        if used_Id setll ll.id then (mp, setll)
        else (mapSetLlAttr mp ll.id keyRef val, setll ++ [ll.id])
      svdGo st1.1 seg key keyRef val st1.2 (i + 1) fuel
    else (mp, setll)

def set_value_dir (key : String) (seg : LineString3d) (mp : LaneletMap)
    (keyRef val : String) (setll : List Int) : LaneletMap × List Int :=
  svdGo mp seg key keyRef val setll 1 (chainFuel seg)

/-- `cconflation::highway2subtype_location` (lines 752–781). -/
def highway_nonurban : List String :=
  ["motorway", "trunk", "motorway_link", "trunk_link"]

def road_urban : List String :=
  ["primary", "secondary", "tertiary", "unclassified", "residential", "primary_link",
   "secondary_link", "tertiary_link", "service"]

def highway2subtype_location (valOsm : String) : String × String :=
  if highway_nonurban.contains valOsm then ("highway", "nonurban")
  else if road_urban.contains valOsm then ("road", "urban")
  else if valOsm = "living_street" then ("play_street", "")
  else if valOsm = "busway" then ("bus_lane", "urban")
  else if valOsm = "cycleway" then ("bicycle_lane", "")
  else ("", "")

/-- Lines 294–313 of `check_lanes`: per-segment colour code and `lanes_osm`.
Empty lanes value: blue, `lanes_osm` stays `0`.  Otherwise `std::stoi` (the
`error` models its throw), `+1` for shoulder yes/left/right, `+2` for both;
green on equality with the counted chain length, red otherwise. -/
def seg_lanes_color (valLane valSh : String) (lanesCount : Int) :
    Except String (String × Int) :=
  if valLane ≠ "" then
    match stoi? valLane with
    | none => Except.error "stoi: invalid lanes value"
    | some n =>
      let lanesOsm :=
        if valSh = "yes" ∨ valSh = "left" ∨ valSh = "right" then n + 1
        else if valSh = "both" then n + 2
        else n
      Except.ok (if lanesCount = lanesOsm then "WEBGreen" else "WEBRed", lanesOsm)
  else Except.ok ("WEBBlueLight", 0)

/-- Values of the indexed chain `key1, key2, …` of one direction, in index
order, until the first missing index. -/
def chainValsGo (seg : LineString3d) (key : String) : Nat → Nat → List String
  | _, 0 => []
  | i, fuel + 1 =>
    let kI := key ++ toString i
    if hasAttribute seg kI then attrValue seg kI :: chainValsGo seg key (i + 1) fuel else []

def chainVals (seg : LineString3d) (key : String) : List String :=
  chainValsGo seg key 1 (chainFuel seg)

/-- Modelled from the spec: `s_match::remove_tag_ref_pline` is declared in a
header not under `src/`.  §4.5: removal “strips its chain entry's attribute
key from the owning reference segment so later lookups no longer see it”; §3:
the chain “is re-indexed (contiguous, 1-based) whenever a lane element is
split or removed”.  One direction of one segment: drop the chain entries whose
value is the removed id and re-index the rest contiguously from 1. -/
def reindexSeg (seg : LineString3d) (key : String) (id : Int) : LineString3d :=
  let vals := chainVals seg key
  let keep := vals.filter (fun v => strToInt v ≠ id)
  let stripped := seg.attrs.filter
    (fun kv => ¬(List.range vals.length).any (fun j => kv.1 == key ++ toString (j + 1)))
  { seg with
    attrs := stripped ++ (List.range keep.length).map
      (fun j => (key ++ toString (j + 1), keep.getD j "")) }

/-- Modelled from the spec: `s_match::remove_tag_ref_pline` — strip the removed
lane element's chain entries from every reference segment, both directions. -/
def remove_tag_ref_pline (m : SMatch) (id : Int) : SMatch :=
  { m with
    refPline := m.refPline.map
      (fun seg => reindexSeg (reindexSeg seg "ll_id_forward_" id) "ll_id_backward_" id) }

/-- Modelled from the spec: `s_match::update_ref_tags` is declared in a header
not under `src/`.  §4.3: after a split, “update the match's chain to replace,
at that index and for the same segment object, the old LaneElement id with the
new one”. -/
def update_ref_tags (m : SMatch) (kI : String) (oldId newId : Int) (ind : Nat) : SMatch :=
  { m with
    refPline := m.refPline.mapIdx
      (fun j seg => if j = ind then { seg with attrs := setAttrList seg.attrs kI (toString newId) } else seg) }

/-- `lanelet::geometry::follows` (external library primitive): the previous
lanelet's bounds end on the points the next lanelet's bounds start on
(point identity = id). -/
def follows (mp : LaneletMap) (a b : Lanelet) : Bool :=
  let pl := getLs mp a.leftId
  let pr := getLs mp a.rightId
  let nl := getLs mp b.leftId
  let nr := getLs mp b.rightId
  ¬pl.pts.isEmpty ∧ ¬pr.pts.isEmpty ∧ ¬nl.pts.isEmpty ∧ ¬nr.pts.isEmpty ∧
    (pl.pts.getLastD dfltPt).id == (nl.pts.headD dfltPt).id ∧
    (pr.pts.getLastD dfltPt).id == (nr.pts.headD dfltPt).id

/-- `cconflation::find_wrong_lanelet_candidates` (lines 837–847): the lanelets
referenced by any attribute of the segment whose key contains `forward` or
`backward`. -/
def find_wrong_lanelet_candidates (mp : LaneletMap) (seg : LineString3d) : List Lanelet :=
  seg.attrs.foldl
    (fun cand kv =>
      if containsSub kv.1 "forward" ∨ containsSub kv.1 "backward" then
        cand ++ [find_ll mp (strToInt kv.2)]
      else cand)
    []

/-- Lines 800–821 of `find_wrong_lanelet`: no other lanelet of the map follows
it and it follows no other lanelet. -/
def lonelyLl (mp : LaneletMap) (ll : Lanelet) : Bool :=
  let hasPred := mp.lanelets.any (fun o => o.id ≠ ll.id ∧ follows mp o ll)
  let hasSucc := mp.lanelets.any (fun o => o.id ≠ ll.id ∧ follows mp ll o)
  ¬hasPred ∧ ¬hasSucc

/-- `cconflation::find_wrong_lanelet` (lines 789–832): first candidate with
neither predecessor nor successor; on success record it in `deleted` and strip
its chain entries from the match. -/
def find_wrong_lanelet (mp : LaneletMap) (seg : LineString3d)
    (deleted : List Lanelet) (m : SMatch) : Bool × List Lanelet × SMatch :=
  let candidates := find_wrong_lanelet_candidates mp seg
  match candidates.find? (fun ll => lonelyLl mp ll) with
  | some llFound => (true, deleted ++ [llFound], remove_tag_ref_pline m llFound.id)
  | none => (false, deleted, m)

/-- The `while (lanes_count > lanes_osm)` loop of `check_lanes`
(lines 319–329): remove one wrong lanelet and decrement, or stop (with the
skip diagnostic) when none can be identified.  The segment is re-read from the
match each iteration, as the C++ reference sees the stripped tags. -/
def find_wrong_loop (mp : LaneletMap) (m : SMatch) (segIdx : Nat)
    (deleted : List Lanelet) (lanesCount lanesOsm : Int) : List Lanelet × SMatch :=
  if h : lanesOsm < lanesCount then
    if (find_wrong_lanelet mp (m.refPline.getD segIdx dfltLs) deleted m).1 then
      find_wrong_loop mp (find_wrong_lanelet mp (m.refPline.getD segIdx dfltLs) deleted m).2.2
        segIdx (find_wrong_lanelet mp (m.refPline.getD segIdx dfltLs) deleted m).2.1
        (lanesCount - 1) lanesOsm
    else (deleted, m)
  else (deleted, m)
termination_by (lanesCount - lanesOsm).toNat
decreasing_by simp_wf; omega

/-- Segment loop of `cconflation::check_lanes` (lines 277–331): per segment,
active lanes/shoulder values, counted chain length, colour code (errors model
the `std::stoi` throw), colour entries for both directions, then the removal
loop when a lanes value is present. -/
def checkLanesGo (mp : LaneletMap) (indChange : List Nat)
    (valLanesNew valShoulderNew : List String) (cols : List (Int × String))
    (deleted : List Lanelet) (m : SMatch) :
    Nat → Nat → Except String (List (Int × String) × List Lanelet × SMatch)
  | _, 0 => Except.ok (cols, deleted, m)
  | ind, fuel + 1 =>
    let seg := m.refPline.getD ind dfltLs
    let valLane := activeVal indChange valLanesNew ind
    let valSh := activeVal indChange valShoulderNew ind
    let lanesCount := count_lanes_dir "ll_id_backward_" seg (count_lanes_dir "ll_id_forward_" seg 0)
    match seg_lanes_color valLane valSh lanesCount with
    | Except.error e => Except.error e
    | Except.ok cl =>
      let cols1 := set_color_code_dir "ll_id_forward_" seg mp cl.1 cols
      let cols2 := set_color_code_dir "ll_id_backward_" seg mp cl.1 cols1
      let dm :=
        if valLane ≠ "" then find_wrong_loop mp m ind deleted lanesCount cl.2
        else (deleted, m)
      checkLanesGo mp indChange valLanesNew valShoulderNew cols2 dm.1 dm.2 (ind + 1) fuel

/-- Lines 257–275 of `check_lanes`: re-expand one key's value sequence onto the
merged change-point list, advancing the key's own counter at each merged point
that belongs to the key. -/
def expandVals (ptsMerged ptsKey : List Point3d) (vals : List String) : List String :=
  (ptsMerged.foldl
    (fun (st : List String × Nat) pt =>
      let c := if ptsKey.any (fun q => q.id == pt.id) then st.2 + 1 else st.2
      (st.1 ++ [vals.getD c ""], c))
    ([vals.headD ""], 0)).1

/-- `cconflation::check_lanes` (lines 237–332). -/
def check_lanes (mp : LaneletMap) (m : SMatch) (cols : List (Int × String))
    (ptsChangeLanes ptsChangeShoulder : List Point3d)
    (valLanes valShoulder : List String) (deleted : List Lanelet) :
    Except String (List (Int × String) × List Lanelet × SMatch) :=
  let ptsMerged := merge_point_vec [ptsChangeLanes, ptsChangeShoulder]
  let indChange := ptsMerged.map (fun pt => get_index m pt)
  let valL := if same_direction m then valLanes else valLanes.reverse
  let valS := if same_direction m then valShoulder else valShoulder.reverse
  let valLanesNew := expandVals ptsMerged ptsChangeLanes valL
  let valShoulderNew := expandVals ptsMerged ptsChangeShoulder valS
  checkLanesGo mp indChange valLanesNew valShoulderNew cols deleted m 0 m.refPline.length

/-- State threaded through the split orchestration: the map, the match, the
per-pass memo of already-split curve ids, the produced suffix curves, and the
global id counter. -/
structure SplitState where
  mp : LaneletMap
  m : SMatch
  splitted : List Int
  newLss : List LineString3d
  nextId : Int
deriving DecidableEq

/-- `cconflation::split_ll_dir` (lines 396–422), chain walk for one direction:
for every chain index of `match.ref_pline()[ind]` (the indexing of the vector
is modelled in `Except`: the C++ reads it out of bounds when the reference
route is shorter), split the referenced lanelet's left and right bound, add a
new lanelet pairing the two suffix curves with the original's attributes, and
replace the chain entry.  The bound mutation performed by `split_linestring`
through the shared handle is written back to the linestring store. -/
def splitLlDirGo (st : SplitState) (ind : Nat) (key : String) (pt : Point3d)
    (invert : Bool) : Nat → Nat → Except String SplitState
  | _, 0 => Except.ok st
  | i, fuel + 1 =>
    match st.m.refPline[ind]? with
    | none => Except.error "reference segment index out of range"
    | some seg =>
      let kI := key ++ toString i
      if hasAttribute seg kI then
        let orig := find_ll st.mp (strToInt (attrValue seg kI))
        let leftLs := getLs st.mp orig.leftId
        let r1 := split_linestring leftLs st.splitted st.newLss pt invert st.nextId
        let mp1 := storeUpdate st.mp r1.origLs
        let rightLs := getLs mp1 orig.rightId
        let r2 := split_linestring rightLs r1.splitted r1.newLss pt invert r1.nextId
        let mp2 := storeUpdate mp1 r2.origLs
        let newLl : Lanelet := ⟨r2.nextId, r1.newLs.id, r2.newLs.id, orig.attrs⟩
        let mp3 := mapAddLanelet mp2 newLl [r1.newLs, r2.newLs]
        let m1 := update_ref_tags st.m kI orig.id newLl.id ind
        splitLlDirGo ⟨mp3, m1, r2.splitted, r2.newLss, r2.nextId + 1⟩ ind key pt invert (i + 1) fuel
      else Except.ok st

def split_ll_dir (st : SplitState) (ind : Nat) (key : String) (pt : Point3d) :
    Except String SplitState :=
  let invert := containsSub key "backward"
  splitLlDirGo st ind key pt invert 1 (chainFuel (st.m.refPline.getD ind dfltLs))

/-- `cconflation::split_lanelet` (lines 378–390): per merged change point,
locate the nearest reference segment and split both chain directions.  The
memo and suffix store start empty for each call. -/
def split_lanelet (mp : LaneletMap) (m : SMatch) (pts : List Point3d)
    (nextId : Int) : Except String SplitState :=
  pts.foldlM
    (fun st pt => do
      let ind := get_index st.m pt
      let st1 ← split_ll_dir st ind "ll_id_forward_" pt
      split_ll_dir st1 ind "ll_id_backward_" pt)
    (⟨mp, m, [], [], nextId⟩ : SplitState)

/-- `cconflation::split_on_tag_change` (lines 153–165): detect the per-key
change points and values, merge the points, and split where anything changes. -/
def split_on_tag_change (mp : LaneletMap) (m : SMatch) (targetKeys : List String)
    (nextId : Int) :
    Except String (LaneletMap × SMatch × Int × List (List Point3d) × List (List String)) :=
  let ptsValues := check_tag_change m.targetPline targetKeys
  let ptsMerged := merge_point_vec ptsValues.1
  if ptsMerged.isEmpty then Except.ok (mp, m, nextId, ptsValues.1, ptsValues.2)
  else
    (split_lanelet mp m ptsMerged nextId).map
      (fun st => (st.mp, st.m, st.nextId, ptsValues.1, ptsValues.2))

/-- Segment loop of `cconflation::set_type_location` (lines 188–208). -/
def stlGo (m : SMatch) (indChange : List Nat) (values : List String) :
    List LineString3d → Nat → LaneletMap → List Int → List Int → LaneletMap
  | [], _, mp, _, _ => mp
  | seg :: rest, ind, mp, setSub, setLoc =>
    let val := activeVal indChange values ind
    let sl := highway2subtype_location val
    let r1 := set_value_dir "ll_id_forward_" seg mp "subtype" sl.1 setSub
    let r2 := set_value_dir "ll_id_backward_" seg r1.1 "subtype" sl.1 r1.2
    let r3 := set_value_dir "ll_id_forward_" seg r2.1 "location" sl.2 setLoc
    let r4 := set_value_dir "ll_id_backward_" seg r3.1 "location" sl.2 r3.2
    stlGo m indChange values rest (ind + 1) r4.1 r2.2 r4.2

/-- `cconflation::set_type_location` (lines 171–210). -/
def set_type_location (mp : LaneletMap) (m : SMatch) (ptsChange : List Point3d)
    (values : List String) : LaneletMap :=
  if values.isEmpty then mp
  else
    let indChange := ptsChange.map (fun pt => get_index m pt)
    let vals := if same_direction m then values else values.reverse
    stlGo m indChange vals m.refPline 0 mp [] []

/-- Segment loop of `cconflation::transfer_tag` (lines 519–534). -/
def ttGo (indChange : List Nat) (values : List String) (keyRef : String) :
    List LineString3d → Nat → LaneletMap → List Int → LaneletMap
  | [], _, mp, _ => mp
  | seg :: rest, ind, mp, setll =>
    let val := activeVal indChange values ind
    let r1 := set_value_dir "ll_id_forward_" seg mp keyRef val setll
    let r2 := set_value_dir "ll_id_backward_" seg r1.1 keyRef val r1.2
    ttGo indChange values keyRef rest (ind + 1) r2.1 r2.2

/-- `cconflation::transfer_tag` (lines 510–536). -/
def transfer_tag (m : SMatch) (keyRef : String) (indChange : List Nat)
    (values : List String) (mp : LaneletMap) (setll : List Int) : LaneletMap :=
  if values.isEmpty then mp
  else
    let vals := if same_direction m then values else values.reverse
    ttGo indChange vals keyRef m.refPline 0 mp setll

/-- `cconflation::transfer_att` (lines 216–229). -/
def transfer_att (mp : LaneletMap) (m : SMatch) (refKey : String)
    (ptsChange : List Point3d) (values : List String) : LaneletMap :=
  let indChange := ptsChange.map (fun pt => get_index m pt)
  transfer_tag m refKey indChange values mp []

/-- The fixed key list of `conflate_lanelet_OSM` (lines 69–70). -/
def target_keys : List String :=
  ["highway", "maxspeed", "name", "oneway", "surface", "lane_markings", "lanes", "shoulder"]

/-- Body of the per-match loop of `cconflation::conflate_lanelet_OSM`
(lines 73–103): skip the match when the target route is empty; otherwise
split on tag changes, set subtype/location from the highway value, transfer
the five simple tags, and reconcile lane counts. -/
def conflateMatch (mp : LaneletMap) (m : SMatch) (cols : List (Int × String))
    (deleted : List Lanelet) (nextId : Int) :
    Except String (LaneletMap × SMatch × List (Int × String) × List Lanelet × Int) :=
  if m.targetPline.isEmpty then Except.ok (mp, m, cols, deleted, nextId)
  else do
    let r ← split_on_tag_change mp m target_keys nextId
    let mp1 := r.1
    let m1 := r.2.1
    let nextId1 := r.2.2.1
    let ptsChange := r.2.2.2.1
    let values := r.2.2.2.2
    let mp2 := set_type_location mp1 m1 (ptsChange.getD 0 []) (values.getD 0 [])
    let mp3 := transfer_att mp2 m1 "speed_limit" (ptsChange.getD 1 []) (values.getD 1 [])
    let mp4 := transfer_att mp3 m1 "road_name" (ptsChange.getD 2 []) (values.getD 2 [])
    let mp5 := transfer_att mp4 m1 "one_way" (ptsChange.getD 3 []) (values.getD 3 [])
    let mp6 := transfer_att mp5 m1 "road_surface" (ptsChange.getD 4 []) (values.getD 4 [])
    let mp7 := transfer_att mp6 m1 "lane_markings" (ptsChange.getD 5 []) (values.getD 5 [])
    let r2 ← check_lanes mp7 m1 cols (ptsChange.getD 6 []) (ptsChange.getD 7 [])
      (values.getD 6 []) (values.getD 7 []) deleted
    Except.ok (mp7, r2.2.2, r2.1, r2.2.1, nextId1)

/-- `cconflation::conflate_lanelet_OSM` (lines 65–114): the per-match loop,
threading the map, the colour list, the deleted set, the mutated matches and
the global id counter; the C++ `return true` is the `ok` result, a C++
exception or out-of-bounds access is the `error` result. -/
def conflate_lanelet_OSM (mp : LaneletMap) (ms : List SMatch)
    (cols : List (Int × String)) (deleted : List Lanelet) (nextId : Int) :
    Except String (LaneletMap × List SMatch × List (Int × String) × List Lanelet) :=
  let res : Except String (LaneletMap × List SMatch × List (Int × String) × List Lanelet × Int) :=
    ms.foldlM
      (fun st m => do
        let r ← conflateMatch st.1 m st.2.2.1 st.2.2.2.1 st.2.2.2.2
        Except.ok (r.1, st.2.1 ++ [r.2.1], r.2.2.1, r.2.2.2.1, r.2.2.2.2))
      (mp, [], cols, deleted, nextId)
  res.map (fun st => (st.1, st.2.1, st.2.2.1, st.2.2.2.1))

/-- `new_map->add(ll)` for a lanelet taken from the source map: register the
lanelet together with its bound linestrings. -/
def mapAddExisting (dst src : LaneletMap) (ll : Lanelet) : LaneletMap :=
  mapAddLanelet dst ll [getLs src ll.leftId, getLs src ll.rightId]

/-- `cconflation::create_updated_map` (lines 120–144): transfer every lanelet
of the original map that is not in the deleted set (C++ compares lanelets by
identity = id), then all areas, regulatory elements and polygons. -/
def create_updated_map (mp newMap : LaneletMap) (deleted : List Lanelet) : LaneletMap :=
  let m1 := mp.lanelets.foldl
    (fun acc ll => if deleted.any (fun d => d.id == ll.id) then acc else mapAddExisting acc mp ll)
    newMap
  { m1 with
    areas := m1.areas ++ mp.areas
    regElems := m1.regElems ++ mp.regElems
    polygons := m1.polygons ++ mp.polygons }

/-- Effective value of a key on a segment: the attribute value, with absence
read as the empty string (the comparison rule of `check_tag_change`). -/
def effVal (seg : LineString3d) (key : String) : String :=
  if hasAttribute seg key then attrValue seg key else ""

/-- A two-point curve whose split point projects onto its last vertex. -/
def c2ls : LineString3d := ⟨1, [⟨10, 0, 0, 0⟩, ⟨11, 1, 0, 0⟩], []⟩

def c2pt : Point3d := ⟨99, 1, 0, 0⟩

/-- A three-point curve whose split point projects onto its last vertex. -/
def c3ls : LineString3d := ⟨2, [⟨20, 0, 0, 0⟩, ⟨21, 1, 0, 0⟩, ⟨22, 2, 0, 0⟩], []⟩

def c3pt : Point3d := ⟨98, 2, 0, 0⟩

/-- A match with an *empty reference route* but a nonempty target route whose
`highway` value changes between the two target segments. -/
def c8match : SMatch :=
  ⟨[], [⟨70, [⟨71, 0, 0, 0⟩, ⟨72, 1, 0, 0⟩], [("highway", "motorway")]⟩,
        ⟨73, [⟨74, 1, 0, 0⟩, ⟨75, 2, 0, 0⟩], [("highway", "primary")]⟩]⟩

/-- A match whose target route carries the unparseable lanes value `"abc"`
(constant along the route, so no split happens before `check_lanes`). -/
def c9match : SMatch :=
  ⟨[⟨50, [⟨51, 0, 0, 0⟩, ⟨52, 1, 0, 0⟩], []⟩],
   [⟨60, [⟨61, 0, 0, 0⟩, ⟨62, 1, 0, 0⟩], [("lanes", "abc")]⟩]⟩

/-- Concrete splitter input for the idempotence witness. -/
def w1Ls : LineString3d := ⟨3, [⟨30, 0, 0, 0⟩, ⟨31, 1, 0, 0⟩, ⟨32, 2, 0, 0⟩], [("type", "line_thin")]⟩

def w1Pt : Point3d := ⟨97, 1, 0, 0⟩

/-- A target route with a constant `highway` value. -/
def w4Pline : List LineString3d :=
  [⟨40, [⟨41, 0, 0, 0⟩], [("highway", "motorway")]⟩,
   ⟨42, [⟨43, 1, 0, 0⟩], [("highway", "motorway")]⟩,
   ⟨44, [⟨45, 2, 0, 0⟩], [("highway", "motorway")]⟩]

/-- Two isolated lanelets (no `follows` adjacency) on one reference segment,
for the reconciler witness. -/
def w6L1 : LineString3d := ⟨100, [⟨110, 0, 0, 0⟩, ⟨111, 1, 0, 0⟩], []⟩

def w6L2 : LineString3d := ⟨101, [⟨112, 0, 1, 0⟩, ⟨113, 1, 1, 0⟩], []⟩

def w6L3 : LineString3d := ⟨102, [⟨114, 0, 2, 0⟩, ⟨115, 1, 2, 0⟩], []⟩

def w6L4 : LineString3d := ⟨103, [⟨116, 0, 3, 0⟩, ⟨117, 1, 3, 0⟩], []⟩

def w6Map : LaneletMap :=
  ⟨[w6L1, w6L2, w6L3, w6L4], [⟨1, 100, 101, []⟩, ⟨2, 102, 103, []⟩], [], [], []⟩

def w6Match : SMatch :=
  ⟨[⟨120, [⟨121, 0, 0, 0⟩], [("ll_id_forward_1", "1"), ("ll_id_forward_2", "2")]⟩], []⟩

/-- A two-lanelet map with one deleted lanelet, for the finalizer witness. -/
def w7Ls : LineString3d := ⟨130, [⟨131, 0, 0, 0⟩, ⟨132, 1, 0, 0⟩], []⟩

def w7Ll1 : Lanelet := ⟨11, 130, 130, []⟩

def w7Ll2 : Lanelet := ⟨12, 130, 130, []⟩

def w7Map : LaneletMap := ⟨[w7Ls], [w7Ll1, w7Ll2], [7], [8], [9]⟩

def w7Del : List Lanelet := [w7Ll2]

/-- A three-point linestring for the segment-locator witness. -/
def w10Ls : LineString3d := ⟨4, [⟨140, 0, 0, 0⟩, ⟨141, 1, 1, 0⟩, ⟨142, 2, 0, 0⟩], []⟩

def w10Pt : Point3d := ⟨143, 1, 0, 0⟩
theorem argminByAux_lt_aux {α : Type} (lt : α → α → Bool) :
    ∀ (r : List α) (i best : Nat) (bv : α), best < i →
      argminByAux lt r i best bv < i + r.length := by
  intro r
  induction r with
  | nil =>
    intro i best bv h
    simpa [argminByAux] using h
  | cons a r ih =>
    intro i best bv h
    simp only [argminByAux, List.length_cons]
    split
    · have := ih (i + 1) i a (by omega)
      omega
    · have := ih (i + 1) best bv (by omega)
      omega

theorem argminBy_lt {α : Type} (lt : α → α → Bool) (l : List α) (h : l ≠ []) :
    argminBy lt l < l.length := by
  cases l with
  | nil => simp at h
  | cons a r =>
    have := argminByAux_lt_aux lt r 1 0 a (by omega)
    simp only [argminBy, List.length_cons]
    omega

@[simp] theorem invertLs_id (ls : LineString3d) : (invertLs ls).id = ls.id := rfl

@[simp] theorem invertLs_invertLs (ls : LineString3d) : invertLs (invertLs ls) = ls := by
  cases ls
  simp [invertLs]

@[simp] theorem id_if_invert (b : Bool) (ls : LineString3d) :
    (if b then invertLs ls else ls).id = ls.id := by
  cases b <;> simp

theorem used_Id_eq_true {l : List Int} {i : Int} : used_Id l i = true ↔ i ∈ l := by
  simp [used_Id]

theorem used_Id_eq_false {l : List Int} {i : Int} : used_Id l i = false ↔ i ∉ l := by
  rw [← Bool.not_eq_true]
  exact not_congr used_Id_eq_true

theorem findIdx0_concat_self {l : List Int} {x : Int} (h : x ∉ l) :
    findIdx0 (l ++ [x]) x = l.length := by
  induction l with
  | nil => simp [findIdx0]
  | cons a r ih =>
    simp only [List.mem_cons, not_or] at h
    have h1 : findIdx0 ((a :: r) ++ [x]) x
        = if a = x then 0 else findIdx0 (r ++ [x]) x + 1 := rfl
    rw [h1, if_neg (fun he => h.1 he.symm), ih h.2]
    simp

theorem getD_concat_length {α : Type} (l : List α) (a d : α) :
    (l ++ [a]).getD l.length d = a := by
  induction l with
  | nil => rfl
  | cons b r ih => simpa using ih

theorem splitLsCore_mem (orig : LineString3d) (splitted : List Int)
    (newLss : List LineString3d) (p : Point3d) (n : Int) (h : orig.id ∈ splitted) :
    splitLsCore orig splitted newLss p n =
      { origLs := orig
        newLs := newLss.getD (findIdx0 splitted orig.id) dfltLs
        splitted := splitted
        newLss := newLss
        nextId := n } := by
  unfold splitLsCore
  rw [if_pos (used_Id_eq_true.2 h)]

theorem splitLsCore_not_mem (orig : LineString3d) (splitted : List Int)
    (newLss : List LineString3d) (p : Point3d) (n : Int) (h : orig.id ∉ splitted) :
    ∃ pref nl : LineString3d,
      splitLsCore orig splitted newLss p n =
        { origLs := pref
          newLs := nl
          splitted := splitted ++ [orig.id]
          newLss := newLss ++ [nl]
          nextId := n + 2 } ∧
      pref.id = orig.id := by
  unfold splitLsCore
  rw [if_neg (fun hh => h (used_Id_eq_true.1 hh))]
  exact ⟨_, _, rfl, rfl⟩

theorem split_linestring_mem_eq (c : LineString3d) (splitted : List Int)
    (newLss : List LineString3d) (p : Point3d) (invert : Bool) (n : Int)
    (h : c.id ∈ splitted) :
    split_linestring c splitted newLss p invert n =
      { origLs := c
        newLs :=
          if invert then invertLs (newLss.getD (findIdx0 splitted c.id) dfltLs)
          else newLss.getD (findIdx0 splitted c.id) dfltLs
        splitted := splitted
        newLss := newLss
        nextId := n } := by
  have hcore := splitLsCore_mem (if invert then invertLs c else c) splitted newLss p n
    (by rw [id_if_invert]; exact h)
  cases invert <;> simp_all [split_linestring]

theorem split_linestring_not_mem (c : LineString3d) (splitted : List Int)
    (newLss : List LineString3d) (p : Point3d) (invert : Bool) (n : Int)
    (h : c.id ∉ splitted) :
    ∃ pref nl : LineString3d,
      split_linestring c splitted newLss p invert n =
        { origLs := if invert then invertLs pref else pref
          newLs := if invert then invertLs nl else nl
          splitted := splitted ++ [c.id]
          newLss := newLss ++ [nl]
          nextId := n + 2 } ∧
      pref.id = c.id := by
  obtain ⟨pref, nl, hcore, hpid⟩ := splitLsCore_not_mem (if invert then invertLs c else c)
    splitted newLss p n (by rw [id_if_invert]; exact h)
  refine ⟨pref, nl, ?_, by rw [hpid, id_if_invert]⟩
  cases invert <;> simp_all [split_linestring]

/-- C1: a curve identity already recorded in the per-pass `splitted` memo is
never re-split — invoking `split_linestring` a second time on the (possibly
already split) curve, with any split point and either direction flag, returns
the previously produced suffix curve identity, leaves the original curve
exactly as the first call left it, and leaves the memo, the suffix store and
the id counter untouched; in particular, splitting a shared boundary curve
once from each adjacent lane element yields the same suffix curve identity
both times.  The hypothesis records that memo and suffix store grow in
lockstep (both start empty in `split_lanelet`). -/
theorem split_linestring_idempotent (c : LineString3d) (splitted : List Int)
    (newLss : List LineString3d) (p1 p2 : Point3d) (inv1 inv2 : Bool) (n : Int)
    (hlen : splitted.length = newLss.length) :
    let r1 := split_linestring c splitted newLss p1 inv1 n
    let r2 := split_linestring r1.origLs r1.splitted r1.newLss p2 inv2 r1.nextId
    r2.newLs.id = r1.newLs.id ∧ r2.origLs = r1.origLs ∧ r2.splitted = r1.splitted ∧
      r2.newLss = r1.newLss ∧ r2.nextId = r1.nextId := by
  intro r1 r2
  by_cases hc : c.id ∈ splitted
  · have hr1 : r1 = _ := split_linestring_mem_eq c splitted newLss p1 inv1 n hc
    have hr2 : r2 = split_linestring c splitted newLss p2 inv2 n := by
      show split_linestring r1.origLs r1.splitted r1.newLss p2 inv2 r1.nextId = _
      rw [hr1]
    rw [hr2, split_linestring_mem_eq c splitted newLss p2 inv2 n hc, hr1]
    refine ⟨?_, rfl, rfl, rfl, rfl⟩
    simp
  · obtain ⟨pref, nl, hr1, hpid⟩ := split_linestring_not_mem c splitted newLss p1 inv1 n hc
    have hr1' : r1 = _ := hr1
    have hido : r1.origLs.id = c.id := by rw [hr1']; simp [hpid]
    have hmem : r1.origLs.id ∈ r1.splitted := by
      rw [hido, hr1']
      simp
    have hr2 : r2 = _ :=
      split_linestring_mem_eq r1.origLs r1.splitted r1.newLss p2 inv2 r1.nextId hmem
    rw [hr2]
    refine ⟨?_, rfl, rfl, rfl, rfl⟩
    have hgd : r1.newLss.getD (findIdx0 r1.splitted r1.origLs.id) dfltLs = nl := by
      rw [hido, hr1']
      show (newLss ++ [nl]).getD (findIdx0 (splitted ++ [c.id]) c.id) dfltLs = nl
      rw [findIdx0_concat_self hc, hlen, getD_concat_length]
    simp only [id_if_invert, hgd]
    rw [hr1']
    simp

/-- Witness for C1: a concrete three-point curve, split forward and then
backward with the memo produced by the first call. -/
theorem split_linestring_idempotent_witness :
    ([] : List Int).length = ([] : List LineString3d).length ∧
    (let r1 := split_linestring w1Ls [] [] w1Pt false 300
     let r2 := split_linestring r1.origLs r1.splitted r1.newLss w1Pt true r1.nextId
     r2.newLs.id = r1.newLs.id ∧ r2.origLs = r1.origLs ∧ r2.splitted = r1.splitted ∧
       r2.newLss = r1.newLss ∧ r2.nextId = r1.nextId) :=
  ⟨rfl, split_linestring_idempotent w1Ls [] [] w1Pt w1Pt false true 300 rfl⟩

/-- C2 (code bug): on a two-point curve whose split point lies on the last
vertex, the splitter leaves a *one-point* suffix curve, and the retained
prefix ends in the duplicated last vertex — both the "each resulting curve has
≥ 2 points" part and the clean-reconstruction part of the claimed invariant
fail.  The guilty branch of the source (lines 455–463) tests
`std::distance(min_element, end()) == 0`, which never holds for a nonempty
distance list. -/
theorem split_linestring_two_point_suffix_degenerate :
    (split_linestring c2ls [] [] c2pt false 100).newLs.pts.length = 1 ∧
    (split_linestring c2ls [] [] c2pt false 100).origLs.pts =
      [⟨10, 0, 0, 0⟩, ⟨11, 1, 0, 0⟩, ⟨11, 1, 0, 0⟩] := by
  decide

/-- C3 (code bug): when the vertex of the curve closest to the projected split
point is the curve's *last* vertex (within the snapping tolerance), no
midpoint of the last two vertices is synthesized: the last-vertex branch of
the source is dead and the split snaps to the existing last vertex itself —
here, on a three-point curve split at its last vertex, the suffix curve is
exactly the original last vertex (one point) and the original grows to four
points instead of being split behind a synthesized midpoint. -/
theorem split_linestring_last_vertex_snap :
    (split_linestring c3ls [] [] c3pt false 200).newLs.pts = [⟨22, 2, 0, 0⟩] ∧
    (split_linestring c3ls [] [] c3pt false 200).origLs.pts.length = 4 := by
  decide

theorem ctcStep_len (key : String) (st : List Point3d × List String × String)
    (seg : LineString3d) (h : st.2.1.length = st.1.length + 1) :
    (ctcStep key st seg).2.1.length = (ctcStep key st seg).1.length + 1 := by
  unfold ctcStep
  by_cases h1 : hasAttribute seg key
  · by_cases h2 : attrValue seg key ≠ st.2.2
    · simp [h1, h2, h]
    · simp [h1, h2, h]
  · by_cases h2 : st.2.2 ≠ ""
    · simp [h1, h2, h]
    · simp [h1, h2, h]

theorem ctc_foldl_len (key : String) :
    ∀ (l : List LineString3d) (st : List Point3d × List String × String),
      st.2.1.length = st.1.length + 1 →
      (l.foldl (ctcStep key) st).2.1.length = (l.foldl (ctcStep key) st).1.length + 1 := by
  intro l
  induction l with
  | nil =>
    intro st h
    simpa using h
  | cons s l ih =>
    intro st h
    simp only [List.foldl_cons]
    exact ih _ (ctcStep_len key st s h)

theorem ctc_foldl_const (key : String) :
    ∀ (l : List LineString3d) (st : List Point3d × List String × String),
      (∀ s ∈ l, effVal s key = st.2.2) →
      l.foldl (ctcStep key) st = st := by
  intro l
  induction l with
  | nil =>
    intro st _
    rfl
  | cons s l ih =>
    intro st h
    have hs : effVal s key = st.2.2 := h s (by simp)
    have hstep : ctcStep key st s = st := by
      unfold ctcStep effVal at *
      by_cases h1 : hasAttribute s key
      · simp only [h1, if_true] at hs ⊢
        rw [if_neg (by simp [hs])]
      · simp only [h1, if_false, Bool.false_eq_true] at hs ⊢
        rw [if_neg (by simp [← hs])]
    simp only [List.foldl_cons, hstep]
    exact ih st fun s hs' => h s (by simp [hs'])

/-- C4: for every target route and key, `check_tag_change` produces one more
value than change points; and when the key's effective value (absence read as
the empty string) never differs from the first segment's one along the route
— in particular on an empty route — the change-point list is empty and the
value list is exactly the singleton seed value. -/
theorem check_tag_change_shape (pline : List LineString3d) (key : String) :
    (check_tag_change_key pline key).2.length = (check_tag_change_key pline key).1.length + 1 ∧
    ((∀ s ∈ pline, effVal s key = ctcInit pline key) →
      (check_tag_change_key pline key).1 = [] ∧
      (check_tag_change_key pline key).2 = [ctcInit pline key]) := by
  constructor
  · exact ctc_foldl_len key (pline.drop 1) ([], [ctcInit pline key], ctcInit pline key) (by simp)
  · intro h
    have hconst : ∀ s ∈ pline.drop 1, effVal s key
        = (([] : List Point3d), [ctcInit pline key], ctcInit pline key).2.2 := by
      intro s hs
      exact h s (List.drop_subset 1 pline hs)
    have := ctc_foldl_const key (pline.drop 1) ([], [ctcInit pline key], ctcInit pline key) hconst
    unfold check_tag_change_key
    rw [this]
    exact ⟨rfl, rfl⟩

/-- Witness for C4: a three-segment route with a constant `highway` value. -/
theorem check_tag_change_shape_witness :
    (∀ s ∈ w4Pline, effVal s "highway" = ctcInit w4Pline "highway") ∧
    (check_tag_change_key w4Pline "highway").1 = [] ∧
    (check_tag_change_key w4Pline "highway").2 = [ctcInit w4Pline "highway"] :=
  ⟨by decide, (check_tag_change_shape w4Pline "highway").2 (by decide)⟩

theorem used_Id_cols_false {cols : List (Int × String)} {ll : Lanelet}
    (h : used_Id_cols cols ll = false) : ll.id ∉ cols.map Prod.fst := by
  simp only [used_Id_cols, List.any_eq_false, beq_iff_eq] at h
  intro hmem
  obtain ⟨p, hp, hpe⟩ := List.mem_map.1 hmem
  exact h p hp hpe

theorem sccdGo_nodup (mp : LaneletMap) (seg : LineString3d) (key col : String) :
    ∀ (fuel i : Nat) (cols : List (Int × String)), (cols.map Prod.fst).Nodup →
      ((sccdGo mp seg key col cols i fuel).map Prod.fst).Nodup := by
  intro fuel
  induction fuel with
  | zero =>
    intro i cols h
    simpa [sccdGo] using h
  | succ f ih =>
    intro i cols h
    unfold sccdGo
    by_cases h1 : hasAttribute seg (key ++ toString i)
    · simp only [h1, if_true]
      apply ih
      by_cases h2 : used_Id_cols cols (find_ll mp (strToInt (attrValue seg (key ++ toString i))))
      · simpa [h2] using h
      · have h2' : used_Id_cols cols
            (find_ll mp (strToInt (attrValue seg (key ++ toString i)))) = false := by
          simpa using h2
        simp only [h2', Bool.false_eq_true, if_false]
        rw [List.map_append]
        refine List.Nodup.append h (by simp) ?_
        intro a ha hb
        simp only [List.map_cons, List.map_nil, List.mem_singleton] at hb
        exact used_Id_cols_false h2' (hb ▸ ha)
    · simpa [h1] using h

theorem set_color_code_dir_nodup (key : String) (seg : LineString3d) (mp : LaneletMap)
    (col : String) (cols : List (Int × String)) (h : (cols.map Prod.fst).Nodup) :
    ((set_color_code_dir key seg mp col cols).map Prod.fst).Nodup :=
  sccdGo_nodup mp seg key col _ _ cols h

theorem checkLanesGo_nodup (mp : LaneletMap) (indChange : List Nat) (vL vS : List String) :
    ∀ (fuel ind : Nat) (cols : List (Int × String)) (deleted : List Lanelet) (m : SMatch)
      (out : List (Int × String) × List Lanelet × SMatch),
      (cols.map Prod.fst).Nodup →
      checkLanesGo mp indChange vL vS cols deleted m ind fuel = Except.ok out →
      (out.1.map Prod.fst).Nodup := by
  intro fuel
  induction fuel with
  | zero =>
    intro ind cols deleted m out h heq
    simp only [checkLanesGo] at heq
    cases heq
    exact h
  | succ f ih =>
    intro ind cols deleted m out h heq
    simp only [checkLanesGo] at heq
    split at heq
    · exact absurd heq (by simp)
    · exact ih (ind + 1) _ _ _ out
        (set_color_code_dir_nodup _ _ _ _ _ (set_color_code_dir_nodup _ _ _ _ _ h)) heq

/-- C5: per reference segment with a nonempty lanes value that parses to `n`,
`lanes_osm` is `n`, plus 1 for shoulder `yes`/`left`/`right`, plus 2 for
`both`, and the colour is green exactly when the counted chain length equals
it and red otherwise; an empty lanes value yields the blue "unknown" colour
(and `lanes_osm` stays 0); and across a whole `check_lanes` call the colour
accumulator never receives two entries for one lanelet id. -/
theorem check_lanes_classification (valLane valSh : String) (lanesCount n : Int)
    (hp : stoi? valLane = some n) (hne : valLane ≠ "") :
    (seg_lanes_color valLane valSh lanesCount =
      Except.ok
        ((if lanesCount =
             (if valSh = "yes" ∨ valSh = "left" ∨ valSh = "right" then n + 1
              else if valSh = "both" then n + 2 else n) then "WEBGreen" else "WEBRed"),
         if valSh = "yes" ∨ valSh = "left" ∨ valSh = "right" then n + 1
         else if valSh = "both" then n + 2 else n)) ∧
    (∀ (sh : String) (lc : Int), seg_lanes_color "" sh lc = Except.ok ("WEBBlueLight", 0)) ∧
    (∀ (mp : LaneletMap) (m : SMatch) (cols : List (Int × String))
       (ptsL ptsS : List Point3d) (vL vS : List String) (deleted : List Lanelet)
       (out : List (Int × String) × List Lanelet × SMatch),
       (cols.map Prod.fst).Nodup →
       check_lanes mp m cols ptsL ptsS vL vS deleted = Except.ok out →
       (out.1.map Prod.fst).Nodup) := by
  refine ⟨?_, ?_, ?_⟩
  · simp [seg_lanes_color, hne, hp]
  · intro sh lc
    simp [seg_lanes_color]
  · intro mp m cols ptsL ptsS vL vS deleted out h heq
    unfold check_lanes at heq
    exact checkLanesGo_nodup mp _ _ _ _ _ cols deleted m out h heq

/-- Witness for C5: the spec scenario `lanes = "2"`, `shoulder = "both"`,
counted chain length 4 — `lanes_osm = 4`, classification green. -/
theorem check_lanes_classification_witness :
    stoi? "2" = some 2 ∧ "2" ≠ "" ∧
    seg_lanes_color "2" "both" 4 = Except.ok ("WEBGreen", 4) := by
  have h := (check_lanes_classification "2" "both" 4 2 (by decide) (by decide)).1
  refine ⟨by decide, by decide, ?_⟩
  simpa using h

theorem lonelyLl_spec {mp : LaneletMap} {ll : Lanelet} (h : lonelyLl mp ll = true) :
    ∀ o ∈ mp.lanelets, o.id ≠ ll.id →
      follows mp o ll = false ∧ follows mp ll o = false := by
  intro o ho hne
  simp only [lonelyLl, List.any_eq_true, decide_eq_true_eq, not_exists, not_and,
    Bool.not_eq_true] at h
  exact ⟨by simpa [hne] using h.1 o ho, by simpa [hne] using h.2 o ho⟩

theorem find_wrong_lanelet_true (mp : LaneletMap) (seg : LineString3d)
    (deleted : List Lanelet) (m : SMatch)
    (h : (find_wrong_lanelet mp seg deleted m).1 = true) :
    ∃ ll, lonelyLl mp ll = true ∧
      (find_wrong_lanelet mp seg deleted m).2.1 = deleted ++ [ll] := by
  simp only [find_wrong_lanelet] at h ⊢
  cases hf : (find_wrong_lanelet_candidates mp seg).find? (fun ll => lonelyLl mp ll) with
  | none =>
    rw [hf] at h
    simp at h
  | some ll =>
    exact ⟨ll, List.find?_some hf, rfl⟩

theorem find_wrong_lanelet_false (mp : LaneletMap) (seg : LineString3d)
    (deleted : List Lanelet) (m : SMatch)
    (h : (find_wrong_lanelet mp seg deleted m).1 = false) :
    find_wrong_lanelet mp seg deleted m = (false, deleted, m) := by
  simp only [find_wrong_lanelet] at h ⊢
  cases hf : (find_wrong_lanelet_candidates mp seg).find? (fun ll => lonelyLl mp ll) with
  | none => rfl
  | some ll =>
    rw [hf] at h
    simp at h

/-- C6: the removal loop of the lane-count reconciler only ever deletes
lanelets that have neither predecessor nor successor under the map-wide
`follows` relation, deletes at most `lanes_count - lanes_osm` of them (never
more than needed to reach the OSM-reported count), and when no removable
candidate exists it stops, leaving the deleted set exactly as it was. -/
theorem find_wrong_loop_safe (mp : LaneletMap) (m : SMatch) (segIdx : Nat)
    (deleted : List Lanelet) (lanesCount lanesOsm : Int) :
    ∃ extra : List Lanelet,
      (find_wrong_loop mp m segIdx deleted lanesCount lanesOsm).1 = deleted ++ extra ∧
      extra.length ≤ (lanesCount - lanesOsm).toNat ∧
      ∀ ll ∈ extra, lonelyLl mp ll = true ∧
        ∀ o ∈ mp.lanelets, o.id ≠ ll.id →
          follows mp o ll = false ∧ follows mp ll o = false := by
  generalize hn : (lanesCount - lanesOsm).toNat = N
  induction N generalizing m deleted lanesCount with
  | zero =>
    rw [find_wrong_loop]
    rw [dif_neg (by omega)]
    exact ⟨[], by simp, by simp, by simp⟩
  | succ k ih =>
    rw [find_wrong_loop]
    by_cases h : lanesOsm < lanesCount
    · rw [dif_pos h]
      cases hf : (find_wrong_lanelet mp (m.refPline.getD segIdx dfltLs) deleted m).1 with
      | false =>
        rw [if_neg (by simp)]
        exact ⟨[], by simp, by simp, by simp⟩
      | true =>
        rw [if_pos rfl]
        obtain ⟨ll, hlon, hd⟩ :=
          find_wrong_lanelet_true mp (m.refPline.getD segIdx dfltLs) deleted m hf
        obtain ⟨extra, he1, he2, he3⟩ :=
          ih (find_wrong_lanelet mp (m.refPline.getD segIdx dfltLs) deleted m).2.2
            (find_wrong_lanelet mp (m.refPline.getD segIdx dfltLs) deleted m).2.1
            (lanesCount - 1) (by omega)
        refine ⟨ll :: extra, ?_, ?_, ?_⟩
        · rw [he1, hd]
          simp
        · simp only [List.length_cons]
          omega
        · intro x hx
          rcases List.mem_cons.1 hx with hx | hx
          · subst hx
            exact ⟨hlon, lonelyLl_spec hlon⟩
          · exact he3 x hx
    · rw [dif_neg h]
      exact ⟨[], by simp, by simp, by simp⟩

/-- Witness for C6: the spec scenario — chain of two isolated lanelets with
`lanes_osm = 1`. -/
theorem find_wrong_loop_safe_witness :
    ∃ extra : List Lanelet,
      (find_wrong_loop w6Map w6Match 0 [] 2 1).1 = [] ++ extra ∧
      extra.length ≤ ((2 : Int) - 1).toNat ∧
      ∀ ll ∈ extra, lonelyLl w6Map ll = true ∧
        ∀ o ∈ w6Map.lanelets, o.id ≠ ll.id →
          follows w6Map o ll = false ∧ follows w6Map ll o = false :=
  find_wrong_loop_safe w6Map w6Match 0 [] 2 1

theorem cumFoldComponents (mp : LaneletMap) (deleted : List Lanelet) :
    ∀ (lls : List Lanelet) (acc : LaneletMap),
      ((lls.foldl
          (fun acc ll =>
            if deleted.any (fun d => d.id == ll.id) then acc else mapAddExisting acc mp ll)
          acc).lanelets
        = acc.lanelets ++ lls.filter (fun ll => !deleted.any (fun d => d.id == ll.id))) ∧
      ((lls.foldl
          (fun acc ll =>
            if deleted.any (fun d => d.id == ll.id) then acc else mapAddExisting acc mp ll)
          acc).areas = acc.areas) ∧
      ((lls.foldl
          (fun acc ll =>
            if deleted.any (fun d => d.id == ll.id) then acc else mapAddExisting acc mp ll)
          acc).regElems = acc.regElems) ∧
      ((lls.foldl
          (fun acc ll =>
            if deleted.any (fun d => d.id == ll.id) then acc else mapAddExisting acc mp ll)
          acc).polygons = acc.polygons) := by
  intro lls
  induction lls with
  | nil =>
    intro acc
    simp
  | cons ll lls ih =>
    intro acc
    simp only [List.foldl_cons, List.filter_cons]
    by_cases hd : deleted.any (fun d => d.id == ll.id)
    · obtain ⟨i1, i2, i3, i4⟩ := ih acc
      simp only [hd, Bool.not_true, Bool.false_eq_true, if_false, if_true,
        eq_self_iff_true]
      exact ⟨i1, i2, i3, i4⟩
    · have hd' : deleted.any (fun d => d.id == ll.id) = false := by simpa using hd
      obtain ⟨i1, i2, i3, i4⟩ := ih (mapAddExisting acc mp ll)
      simp only [hd', Bool.not_false, Bool.false_eq_true, if_false, if_true,
        eq_self_iff_true]
      refine ⟨?_, ?_, ?_, ?_⟩
      · rw [i1]
        simp [mapAddExisting, mapAddLanelet]
      · rw [i2]
        rfl
      · rw [i3]
        rfl
      · rw [i4]
        rfl

/-- C7: the finalized map built from the original map and the deleted set
contains exactly the original lanelets whose id is not that of a deleted one
(as a sublist, in order), and carries every area, regulatory element and
polygon of the original map unchanged. -/
theorem create_updated_map_spec (mp : LaneletMap) (deleted : List Lanelet) :
    (create_updated_map mp emptyMap deleted).lanelets
      = mp.lanelets.filter (fun ll => !deleted.any (fun d => d.id == ll.id)) ∧
    (∀ ll : Lanelet, ll ∈ (create_updated_map mp emptyMap deleted).lanelets ↔
      (ll ∈ mp.lanelets ∧ ∀ d ∈ deleted, d.id ≠ ll.id)) ∧
    (create_updated_map mp emptyMap deleted).areas = mp.areas ∧
    (create_updated_map mp emptyMap deleted).regElems = mp.regElems ∧
    (create_updated_map mp emptyMap deleted).polygons = mp.polygons := by
  obtain ⟨h1, h2, h3, h4⟩ := cumFoldComponents mp deleted mp.lanelets emptyMap
  have hll : (create_updated_map mp emptyMap deleted).lanelets
      = mp.lanelets.filter (fun ll => !deleted.any (fun d => d.id == ll.id)) := by
    show (mp.lanelets.foldl
        (fun acc ll =>
          if deleted.any (fun d => d.id == ll.id) then acc else mapAddExisting acc mp ll)
        emptyMap).lanelets = _
    rw [h1]
    rfl
  refine ⟨hll, ?_, ?_, ?_, ?_⟩
  · intro ll
    rw [hll, List.mem_filter]
    constructor
    · rintro ⟨hm, hp⟩
      refine ⟨hm, ?_⟩
      intro d hd he
      have hany : deleted.any (fun d => d.id == ll.id) = true := by
        rw [List.any_eq_true]
        exact ⟨d, hd, by simp [he]⟩
      rw [hany] at hp
      simp at hp
    · rintro ⟨hm, hp⟩
      refine ⟨hm, ?_⟩
      have hany : deleted.any (fun d => d.id == ll.id) = false := by
        rw [List.any_eq_false]
        intro d hd
        simp [hp d hd]
      rw [hany]
      rfl
  · show (mp.lanelets.foldl _ emptyMap).areas ++ mp.areas = mp.areas
    rw [h2]
    rfl
  · show (mp.lanelets.foldl _ emptyMap).regElems ++ mp.regElems = mp.regElems
    rw [h3]
    rfl
  · show (mp.lanelets.foldl _ emptyMap).polygons ++ mp.polygons = mp.polygons
    rw [h4]
    rfl

/-- Witness for C7: a two-lanelet map with one deleted lanelet. -/
theorem create_updated_map_spec_witness :
    (create_updated_map w7Map emptyMap w7Del).lanelets
      = w7Map.lanelets.filter (fun ll => !w7Del.any (fun d => d.id == ll.id)) ∧
    (∀ ll : Lanelet, ll ∈ (create_updated_map w7Map emptyMap w7Del).lanelets ↔
      (ll ∈ w7Map.lanelets ∧ ∀ d ∈ w7Del, d.id ≠ ll.id)) ∧
    (create_updated_map w7Map emptyMap w7Del).areas = w7Map.areas ∧
    (create_updated_map w7Map emptyMap w7Del).regElems = w7Map.regElems ∧
    (create_updated_map w7Map emptyMap w7Del).polygons = w7Map.polygons :=
  create_updated_map_spec w7Map w7Del

/-- C8 (code bug): a match whose *reference* route is empty is not skipped —
only an empty target route is guarded.  With a nonempty target route whose
`highway` value changes, the pass reaches the splitter, the segment locator
returns index 0 on the empty reference route, and `split_ll_dir` reads
`match.ref_pline()[0]` out of bounds (modelled as the error result) instead of
skipping the match. -/
theorem conflate_empty_ref_route_faults :
    conflate_lanelet_OSM emptyMap [c8match] [] [] 500 =
      Except.error "reference segment index out of range" := rfl

/-- C9 (code bug): with an active lanes value `"abc"` that is not a parseable
integer, `check_lanes` reaches the unguarded `std::stoi`, whose
`std::invalid_argument` throw (modelled as the error result) propagates out of
the public entry point `conflate_lanelet_OSM` instead of a normal boolean
return. -/
theorem conflate_stoi_exception :
    conflate_lanelet_OSM emptyMap [c9match] [] [] 1000 =
      Except.error "stoi: invalid lanes value" := rfl

theorem consPairs_length {α : Type} (l : List α) :
    (consPairs l).length = l.length - 1 := by
  cases l with
  | nil => rfl
  | cons a r =>
    simp [consPairs, List.length_zip]

/-- C10: for every linestring with at least two points, the segment index
returned by `find_segment_2D` lies between 0 and (number of points − 2)
inclusive: the deviation list has one entry per consecutive vertex pair and
the first-minimum index is always in range.  (The embedded slope `Δy / Δx` is
the source's unguarded division; the exact division returns 0 on a vertical
segment where the C++ double division yields `±inf`/`NaN`.) -/
theorem find_segment_2D_bound (pt : Point3d) (ls : LineString3d)
    (h : 2 ≤ ls.pts.length) :
    find_segment_2D pt ls ≤ ls.pts.length - 2 := by
  have hmain : find_segment_2D pt ls = argminBy (fun a b => decide (a < b))
      ((consPairs ls.pts).map (fun ab =>
        let m := (ab.2.y - ab.1.y) / (ab.2.x - ab.1.x)
        let t := ab.1.y - m * ab.1.x
        Qx.absq (pt.y - (m * pt.x + t)))) := rfl
  rw [hmain]
  have hlen : ((consPairs ls.pts).map (fun ab =>
      let m := (ab.2.y - ab.1.y) / (ab.2.x - ab.1.x)
      let t := ab.1.y - m * ab.1.x
      Qx.absq (pt.y - (m * pt.x + t)))).length = ls.pts.length - 1 := by
    rw [List.length_map, consPairs_length]
  have hne : ((consPairs ls.pts).map (fun ab =>
      let m := (ab.2.y - ab.1.y) / (ab.2.x - ab.1.x)
      let t := ab.1.y - m * ab.1.x
      Qx.absq (pt.y - (m * pt.x + t)))) ≠ [] := by
    rw [← List.length_pos_iff_ne_nil, hlen]
    omega
  have := argminBy_lt (fun a b => decide (a < b)) _ hne
  rw [hlen] at this
  omega

/-- Witness for C10: a concrete three-point linestring. -/
theorem find_segment_2D_bound_witness :
    2 ≤ w10Ls.pts.length ∧ find_segment_2D w10Pt w10Ls ≤ w10Ls.pts.length - 2 :=
  ⟨by decide, find_segment_2D_bound w10Pt w10Ls (by decide)⟩
